import Mathlib

/-!
Verification development for the qualcanal-app repository.

The frontend data pipeline is embedded from app/page.tsx (the loadMatches
callback and the isLive helper): raw API records are normalized into display
records, channels are trimmed and filtered, and failures clear the match list.

The backend cache (Django, matches/services) is not part of the shipped
sources; its behaviour is modelled from the design document, section 4.3
(singleflight refresh coalescing, stale-serve on error, TTL-based expiry),
with the TTL default of 300 seconds taken from backend/README.md
(MATCH_CACHE_SECONDS).
-/

namespace QualCanal

/-! Frontend data model (app/page.tsx). A raw record arriving from the API
may have any field absent or null, hence Option everywhere; channel array
entries may themselves be null. -/

structure RawMatch where
  date_text : Option String
  time : Option String
  home : Option String
  away : Option String
  teams : Option String
  competition : Option String
  channels : Option (List (Option String))
  raw : Option String
deriving DecidableEq

/-- Normalized display record, as produced by the loadMatches mapping. -/
structure MatchRecord where
  date_text : String
  time : String
  home : String
  away : String
  teams : String
  competition : String
  channels : List String
  raw : String
deriving DecidableEq

/-- JavaScript logical-or against a string default: null, undefined and the
empty string are falsy, any other string is returned unchanged. -/
def jsOr (o : Option String) (d : String) : String :=
  match o with
  | none => d
  | some s => if s = "" then d else s

/-- JavaScript String.prototype.trim, embedded charwise: drop leading and
trailing whitespace characters. -/
def jsTrim (s : String) : String :=
  String.mk (((s.data.dropWhile Char.isWhitespace).reverse.dropWhile
    Char.isWhitespace).reverse)

/-- One channel entry of the normalized record: (c or empty) trimmed,
embedding the arrow body in loadMatches. -/
def trimEntry (c : Option String) : String :=
  jsTrim (jsOr c "")

/-- Channel normalization from loadMatches: map each entry through trimEntry
and drop entries that are empty afterwards (filter Boolean). -/
def normChannels (cs : List (Option String)) : List String :=
  (cs.map trimEntry).filter (fun s => s != "")

/-- Per-record normalization, embedded from the object literal inside the
loadMatches map callback (app/page.tsx, normalized). -/
def normalizeMatch (m : RawMatch) : MatchRecord :=
  { date_text := jsOr m.date_text ""
  , time := jsOr m.time ""
  , home := jsOr m.home ""
  , away := jsOr m.away ""
  , teams := jsOr m.teams (jsTrim (jsOr m.home "" ++ " - " ++ jsOr m.away ""))
  , competition := m.competition.getD ""
  , channels := normChannels (m.channels.getD [])
  , raw := jsOr m.raw "" }

/-- The payload array mapping of loadMatches. -/
def normalizeAll (ms : List RawMatch) : List MatchRecord :=
  ms.map normalizeMatch

/-- Shape of the JSON body received by loadMatches: an object carrying a
matches array, a bare array, or anything else. -/
inductive Payload where
  | objWithMatches (ms : List RawMatch)
  | arr (ms : List RawMatch)
  | other
deriving DecidableEq

/-- Outcome of the fetch call as seen by loadMatches: an HTTP response with
a status and parsed JSON body, or a thrown error (network failure, abort,
JSON parse failure). -/
inductive FetchOutcome where
  | response (status : Nat) (data : Payload)
  | thrown
deriving DecidableEq

/-- Response.ok of the fetch API: status in the 2xx range. -/
def resOk (status : Nat) : Bool :=
  decide (200 ≤ status ∧ status < 300)

/-- Payload extraction of loadMatches: data.matches when it is an array,
else data itself when it is an array, else null. -/
def payloadMatches : Payload → Option (List RawMatch)
  | .objWithMatches ms => some ms
  | .arr ms => some ms
  | .other => none

/-- Error message installed by the catch block of loadMatches. -/
def loadErrorMsg : String := "Falha ao carregar dados do backend."

/-- Component state touched by loadMatches: the displayed match list and the
error message. -/
structure UiState where
  matchList : List MatchRecord
  error : Option String
deriving DecidableEq

/-- Failure conditions for a load: a thrown fetch or JSON error, a non-2xx
status, or a body that is neither an object with a matches array nor an
array. -/
def loadFails : FetchOutcome → Bool
  | .thrown => true
  | .response status data => !resOk status || (payloadMatches data).isNone

/-- State produced by one completed run of loadMatches, given the previous
state and the fetch outcome (app/page.tsx, loadMatches). -/
def loadMatches (_prev : UiState) (o : FetchOutcome) : UiState :=
  match o with
  | .thrown => { matchList := [], error := some loadErrorMsg }
  | .response status data =>
      if resOk status then
        match payloadMatches data with
        | some ms => { matchList := normalizeAll ms, error := none }
        | none => { matchList := [], error := some loadErrorMsg }
      else { matchList := [], error := some loadErrorMsg }

/-- Substring search on character lists: true when pat occurs contiguously. -/
def substrAux (pat : List Char) : List Char → Bool
  | [] => pat.isEmpty
  | l@(_ :: tl) => pat.isPrefixOf l || substrAux pat tl

/-- JavaScript String.prototype.includes, embedded charwise. -/
def strIncludes (s pat : String) : Bool :=
  substrAux pat.data s.data

/-- Substring containment as a proposition. -/
def ContainsSub (s pat : String) : Prop :=
  ∃ pre post, s.data = pre ++ pat.data ++ post

/-- Liveness heuristic of the presentation layer (app/page.tsx, isLive):
a match is live exactly when its raw text includes the substring hoje. -/
def isLive (m : MatchRecord) : Bool :=
  strIncludes m.raw "hoje"

/-! Cache model. The Django cache implementation is not among the shipped
sources, so the definitions below are modelled from the design document,
section 4.3. -/

/-- Modelled from the spec: a Snapshot is an ordered sequence of match
records plus its fetch time (section 3); the backend type itself is not in
the shipped sources. -/
structure Snapshot where
  matchList : List MatchRecord
  fetchedAt : Nat
deriving DecidableEq

/-- Modelled from the spec: a CacheEntry pairs a snapshot with its expiry
instant (section 3). -/
structure CacheEntry where
  snapshot : Snapshot
  expiresAt : Nat
deriving DecidableEq

/-- Modelled from the spec: failure cause of a refresh, either a fetch
failure or a parse failure (section 7). -/
inductive FetchFailure where
  | fetchError
  | parseError
deriving DecidableEq

/-- Modelled from the spec: CacheError wraps the underlying failure
(section 7). -/
structure CacheError where
  cause : FetchFailure
deriving DecidableEq

/-- Modelled from the spec: result delivered to a get caller, either a
snapshot or a cache error (section 4.3). -/
inductive GetResult where
  | snap (s : Snapshot)
  | err (e : CacheError)
deriving DecidableEq

/-- Modelled from the spec: outcome of the in-flight Fetcher plus Parser
pipeline (sections 4.1 and 4.2). -/
inductive RefreshResult where
  | success (snap : Snapshot)
  | failure (cause : FetchFailure)
deriving DecidableEq

/-- Modelled from the spec: shared cache state (section 4.3). The inflight
slot holds the waiter list of the single refresh allowed in flight, or none;
fetchCount counts upstream Fetcher invocations so far. -/
structure CacheState where
  entry : Option CacheEntry
  inflight : Option (List Nat)
  fetchCount : Nat
deriving DecidableEq

/-- Default TTL in seconds, documented as the MATCH_CACHE_SECONDS default in
backend/README.md and set in the generated .env.prod. -/
def defaultTtlSeconds : Nat := 300

/-- Modelled from the spec: a get call must refresh when forced, when no
entry exists, or when the entry has expired (section 4.3). -/
def needsRefresh (entry : Option CacheEntry) (force : Bool) (now : Nat) : Bool :=
  force ||
    match entry with
    | none => true
    | some e => decide (e.expiresAt ≤ now)

/-- Modelled from the spec: the synchronous part of get (section 4.3).
On a fresh hit it returns the snapshot immediately with the state unchanged;
otherwise the caller joins the in-flight refresh if one exists, or starts a
new one, incrementing the Fetcher invocation count. The second component is
some snapshot on an immediate hit and none when the caller suspends. -/
def getStep (st : CacheState) (caller : Nat) (force : Bool) (now : Nat) :
    CacheState × Option Snapshot :=
  if needsRefresh st.entry force now then
    match st.inflight with
    | some ws => ({ st with inflight := some (ws ++ [caller]) }, none)
    | none =>
        ({ st with inflight := some [caller], fetchCount := st.fetchCount + 1 },
          none)
  else (st, st.entry.map (fun e => e.snapshot))

/-- Modelled from the spec: completion of the in-flight refresh
(section 4.3). On success a new entry expiring at now + ttl is installed and
all waiters receive the new snapshot. On failure, if a previous entry exists
it is served stale, unchanged; with no previous entry every waiter receives a
CacheError wrapping the cause. -/
def completeRefresh (st : CacheState) (r : RefreshResult) (now ttl : Nat) :
    CacheState × GetResult :=
  match r with
  | .success snap =>
      ({ st with
          entry := some { snapshot := snap, expiresAt := now + ttl }
        , inflight := none },
        .snap snap)
  | .failure cause =>
      match st.entry with
      | some e => ({ st with inflight := none }, .snap e.snapshot)
      | none => ({ st with inflight := none }, .err { cause := cause })

/-- One concurrent get request: caller id, force flag and arrival instant. -/
structure GetCall where
  caller : Nat
  force : Bool
  now : Nat
deriving DecidableEq

/-- Sequentialized interleaving of a batch of get calls, none of which is
separated by a refresh completion. -/
def runGets (st : CacheState) (calls : List GetCall) : CacheState :=
  calls.foldl (fun s c => (getStep s c.caller c.force c.now).fst) st

/-! Concrete inputs used by the witnesses below. -/

def mBP : RawMatch :=
  { date_text := none, time := none, home := some "Benfica"
  , away := some "Porto", teams := none, competition := none
  , channels := none, raw := none }

def mNoHome : RawMatch :=
  { date_text := some "hoje", time := some "18h00", home := some ""
  , away := some "Porto", teams := none, competition := some "Liga"
  , channels := some [some "Sport.Tv1"], raw := some "dia de jogo" }

def uiEmptyW : UiState := { matchList := [], error := none }

def recPrevW : MatchRecord :=
  { date_text := "ontem", time := "20h", home := "A", away := "B"
  , teams := "A - B", competition := "", channels := [], raw := "" }

def uiPrevW : UiState := { matchList := [recPrevW], error := none }

def csW : List (Option String) :=
  [some " Sport.Tv1 ", some "Sport.Tv1", some "  ", none, some "Sport.Tv1"]

def msW : List RawMatch := [mNoHome, mBP]

def rawDefW : RawMatch :=
  { date_text := none, time := none, home := none, away := none
  , teams := none, competition := none, channels := none, raw := none }

def recDefW : MatchRecord := normalizeMatch rawDefW

def mLiveW : MatchRecord :=
  { date_text := "hoje", time := "18h", home := "Benfica", away := "Porto"
  , teams := "Benfica - Porto", competition := "Liga"
  , channels := ["Sport.Tv1"], raw := "jogo de hoje as 18h" }

def mLiveW2 : MatchRecord :=
  { date_text := "outra", time := "21h", home := "X", away := "Y"
  , teams := "X - Y", competition := "", channels := []
  , raw := "jogo de hoje as 18h" }

def snapW : Snapshot := { matchList := [mLiveW], fetchedAt := 0 }

def snapW2 : Snapshot := { matchList := [], fetchedAt := 10 }

def entryW : CacheEntry := { snapshot := snapW, expiresAt := 300 }

def stColdW : CacheState :=
  { entry := none, inflight := some [1, 2], fetchCount := 1 }

def stHitW : CacheState :=
  { entry := some entryW, inflight := none, fetchCount := 1 }

def stIdleW : CacheState :=
  { entry := none, inflight := none, fetchCount := 0 }

def callsW : List GetCall :=
  [{ caller := 1, force := false, now := 0 }
  , { caller := 2, force := true, now := 0 }
  , { caller := 3, force := false, now := 7 }]

/-! Helper lemmas. -/

lemma isPrefixOf_iff_exists (p : List Char) :
    ∀ l : List Char, p.isPrefixOf l = true ↔ ∃ t, p ++ t = l := by
  induction p with
  | nil => intro l; simp [List.isPrefixOf]
  | cons a as ih =>
    intro l
    cases l with
    | nil => simp [List.isPrefixOf]
    | cons b bs => simp [List.isPrefixOf, ih bs]

lemma substrAux_iff (pat : List Char) (l : List Char) :
    substrAux pat l = true ↔ ∃ pre post, l = pre ++ pat ++ post := by
  induction l with
  | nil => simp [substrAux, List.isEmpty_iff]
  | cons c tl ih =>
    simp only [substrAux, Bool.or_eq_true, ih, isPrefixOf_iff_exists]
    constructor
    · rintro (⟨t, ht⟩ | ⟨pre, post, h⟩)
      · exact ⟨[], t, by simp [ht]⟩
      · exact ⟨c :: pre, post, by simp [h]⟩
    · rintro ⟨pre, post, h⟩
      cases pre with
      | nil => exact Or.inl ⟨post, by simpa using h.symm⟩
      | cons p ps =>
        right
        simp at h
        exact ⟨ps, post, by simp [h.2]⟩

lemma getStep_entry (st : CacheState) (caller : Nat) (force : Bool) (now : Nat) :
    (getStep st caller force now).fst.entry = st.entry := by
  unfold getStep
  split
  · cases h : st.inflight <;> simp [h]
  · rfl

lemma runGets_join (calls : List GetCall) :
    ∀ (st : CacheState) (ws : List Nat),
      st.inflight = some ws →
      (∀ c ∈ calls, needsRefresh st.entry c.force c.now = true) →
      runGets st calls =
        { st with inflight := some (ws ++ calls.map (fun c => c.caller)) } := by
  induction calls with
  | nil =>
    intro st ws hfl _
    cases st
    simp_all [runGets]
  | cons c rest ih =>
    intro st ws hfl hreq
    have hc : needsRefresh st.entry c.force c.now = true :=
      hreq c (List.mem_cons_self c rest)
    have hstep :
        (getStep st c.caller c.force c.now).fst =
          { st with inflight := some (ws ++ [c.caller]) } := by
      simp [getStep, hc, hfl]
    calc runGets st (c :: rest)
        = runGets (getStep st c.caller c.force c.now).fst rest := rfl
      _ = runGets ({ st with inflight := some (ws ++ [c.caller]) }) rest := by
          rw [hstep]
      _ = { st with
              inflight := some ((ws ++ [c.caller]) ++ rest.map (fun c => c.caller)) } :=
          ih _ (ws ++ [c.caller]) rfl
            (fun d hd => hreq d (List.mem_cons_of_mem c hd))
      _ = { st with inflight := some (ws ++ (c :: rest).map (fun c => c.caller)) } := by
          simp

/-! Claim theorems. -/

/-- C1: singleflight refresh coalescing. From a state with no refresh in
flight, any nonempty batch of concurrent get calls that all request a refresh
triggers exactly one upstream Fetcher invocation; every caller of the batch
ends up waiting on that same single in-flight refresh, in arrival order.
At most one pipeline is in flight at any instant because the state holds at
most one in-flight handle and getStep starts a refresh only when none exists. -/
theorem cache_singleflight (st : CacheState) (calls : List GetCall)
    (hfl : st.inflight = none) (hne : calls ≠ [])
    (hreq : ∀ c ∈ calls, needsRefresh st.entry c.force c.now = true) :
    (runGets st calls).fetchCount = st.fetchCount + 1 ∧
      (runGets st calls).inflight = some (calls.map (fun c => c.caller)) := by
  cases calls with
  | nil => exact absurd rfl hne
  | cons c rest =>
    have hc : needsRefresh st.entry c.force c.now = true :=
      hreq c (List.mem_cons_self c rest)
    have hstep :
        (getStep st c.caller c.force c.now).fst =
          { st with inflight := some [c.caller], fetchCount := st.fetchCount + 1 } := by
      simp [getStep, hc, hfl]
    have hrun :
        runGets st (c :: rest) =
          { st with inflight := some ([c.caller] ++ rest.map (fun c => c.caller)), fetchCount := st.fetchCount + 1 } := by
      calc runGets st (c :: rest)
          = runGets (getStep st c.caller c.force c.now).fst rest := rfl
        _ = runGets ({ st with inflight := some [c.caller], fetchCount := st.fetchCount + 1 }) rest := by rw [hstep]
        _ = { st with inflight := some ([c.caller] ++ rest.map (fun c => c.caller)), fetchCount := st.fetchCount + 1 } :=
            runGets_join rest _ [c.caller] rfl
              (fun d hd => hreq d (List.mem_cons_of_mem c hd))
    rw [hrun]
    simp

/-- Witness for C1 at a cold empty cache and three concurrent calls. -/
theorem cache_singleflight_witness :
    (runGets stIdleW callsW).fetchCount = stIdleW.fetchCount + 1 ∧
      (runGets stIdleW callsW).inflight = some (callsW.map (fun c => c.caller)) :=
  cache_singleflight stIdleW callsW rfl (by decide) (by decide)

/-- C2: teams derivation. When the raw record supplies no combined label, or
an empty one, the normalized teams field is home - away with surrounding
whitespace trimmed (home and away being the normalized fields); a nonempty
explicit label is used verbatim. -/
theorem teams_rule (m : RawMatch) :
    ((m.teams = none ∨ m.teams = some "") →
      (normalizeMatch m).teams =
        jsTrim ((normalizeMatch m).home ++ " - " ++ (normalizeMatch m).away)) ∧
    (∀ s, m.teams = some s → s ≠ "" → (normalizeMatch m).teams = s) := by
  constructor
  · rintro (h | h) <;> simp [normalizeMatch, jsOr, h]
  · intro s hs hne
    simp [normalizeMatch, jsOr, hs, hne]

/-- Witness for C2: Benfica versus Porto with no explicit label gives the
string Benfica - Porto. -/
theorem teams_rule_witness :
    (normalizeMatch mBP).teams =
      jsTrim ((normalizeMatch mBP).home ++ " - " ++ (normalizeMatch mBP).away) ∧
    (normalizeMatch mBP).teams = "Benfica - Porto" :=
  ⟨(teams_rule mBP).1 (Or.inl rfl), by decide⟩

/-- C3 counterexample: a record whose home is empty is not dropped by the
normalization; it appears in the displayed list with home equal to the empty
string, contradicting the claim that such blocks never appear in the output. -/
theorem empty_home_record_kept :
    normalizeMatch mNoHome ∈
      (loadMatches uiEmptyW (.response 200 (.arr [mNoHome]))).matchList ∧
    (normalizeMatch mNoHome).home = "" := by
  constructor
  · decide
  · decide

/-- C3 amended: the normalization drops no record at all. On a successful
load every payload record appears in the output, in order, with missing or
empty home and away defaulted to the empty string, and the load as a whole
never fails because of a malformed record. -/
theorem no_block_dropped (prev : UiState) (status : Nat) (ms : List RawMatch)
    (hok : resOk status = true) :
    loadMatches prev (.response status (.arr ms)) =
      { matchList := normalizeAll ms, error := none } ∧
    (normalizeAll ms).length = ms.length := by
  constructor
  · simp [loadMatches, hok, payloadMatches]
  · simp [normalizeAll]

/-- Witness for C3 amended at a single malformed record and status 204. -/
theorem no_block_dropped_witness :
    loadMatches uiPrevW (.response 204 (.arr [mNoHome])) =
      { matchList := normalizeAll [mNoHome], error := none } ∧
    (normalizeAll [mNoHome]).length = [mNoHome].length :=
  no_block_dropped uiPrevW 204 [mNoHome] (by decide)

/-- C4: channel normalization trims every entry, drops entries that are empty
after trimming, performs no de-duplication, and preserves source order: the
output is a sublist of the trimmed source sequence, every output entry is
nonempty and the trim of some source entry, and every nonempty name keeps its
exact multiplicity. -/
theorem channels_rule (cs : List (Option String)) :
    List.Sublist (normChannels cs) (cs.map trimEntry) ∧
    (∀ s, s ∈ normChannels cs → s ≠ "" ∧ ∃ c, c ∈ cs ∧ s = trimEntry c) ∧
    (∀ s, s ≠ "" → (normChannels cs).count s = (cs.map trimEntry).count s) := by
  refine ⟨List.filter_sublist _, ?_, ?_⟩
  · intro s hs
    rw [normChannels, List.mem_filter] at hs
    obtain ⟨hmem, hpred⟩ := hs
    refine ⟨by simpa using hpred, ?_⟩
    obtain ⟨c, hc, hcs⟩ := List.mem_map.mp hmem
    exact ⟨c, hc, hcs.symm⟩
  · intro s hs
    rw [normChannels]
    exact List.count_filter (by simpa using hs)

/-- Witness for C4: a channel name occurring three times in the source, one
occurrence padded with spaces, is kept three times; the blank and null
entries are dropped. -/
theorem channels_rule_witness :
    (normChannels csW).count "Sport.Tv1" = (csW.map trimEntry).count "Sport.Tv1" ∧
    (normChannels csW).count "Sport.Tv1" = 3 ∧
    List.Sublist (normChannels csW) (csW.map trimEntry) :=
  ⟨(channels_rule csW).2.2 "Sport.Tv1" (by decide), by decide, (channels_rule csW).1⟩

/-- C5: serve-stale-on-error. If an entry exists when the in-flight refresh
fails, every waiter receives the previous snapshot rather than an error, and
the entry, hence its expiresAt, is left unchanged, never pushed into the
future. Modelled from the spec, section 4.3. -/
theorem stale_serve (st : CacheState) (cause : FetchFailure) (now ttl : Nat)
    (e : CacheEntry) (h : st.entry = some e) :
    (completeRefresh st (.failure cause) now ttl).snd = .snap e.snapshot ∧
    (completeRefresh st (.failure cause) now ttl).fst.entry = some e := by
  constructor <;> simp [completeRefresh, h]

/-- Witness for C5 at a concrete expired entry and a fetch failure. -/
theorem stale_serve_witness :
    (completeRefresh stHitW (.failure .fetchError) 400 300).snd =
      .snap entryW.snapshot ∧
    (completeRefresh stHitW (.failure .fetchError) 400 300).fst.entry =
      some entryW :=
  stale_serve stHitW .fetchError 400 300 entryW rfl

/-- C6: cold-start failure. With no previous entry, a failing refresh
delivers a CacheError wrapping the cause to the waiters; conversely an error
is ever delivered only in that situation, so the read path errors exactly on
cold-start failure. Modelled from the spec, sections 4.3 and 7. -/
theorem cold_start_error (st : CacheState) (r : RefreshResult) (now ttl : Nat) :
    (st.entry = none →
      ∀ cause, (completeRefresh st (.failure cause) now ttl).snd =
        .err { cause := cause }) ∧
    (∀ c, (completeRefresh st r now ttl).snd = .err c →
      st.entry = none ∧ r = .failure c.cause) := by
  constructor
  · intro h cause
    simp [completeRefresh, h]
  · intro c h
    cases r with
    | success snap => simp [completeRefresh] at h
    | failure cause =>
      cases hE : st.entry with
      | some e => simp [completeRefresh, hE] at h
      | none =>
        obtain ⟨cc⟩ := c
        simp [completeRefresh, hE] at h
        subst h
        exact ⟨rfl, rfl⟩

/-- Witness for C6 at an empty cache and a fetch failure. -/
theorem cold_start_error_witness :
    (completeRefresh stColdW (.failure .fetchError) 0 300).snd =
      .err { cause := .fetchError } :=
  (cold_start_error stColdW (.failure .fetchError) 0 300).1 rfl .fetchError

/-- C7: cache hit. A get with forceRefresh false against a non-expired entry
returns the cached snapshot with the state, in particular the Fetcher
invocation count, unchanged, so no fetch and no parsing happen; a successful
refresh installs an entry expiring at the fetch instant plus ttl; and the ttl
default is 300 seconds. Modelled from the spec, section 4.3, with the
default from backend/README.md. -/
theorem cache_hit_zero_fetch (st : CacheState) (caller now tnow ttl : Nat)
    (e : CacheEntry) (snap : Snapshot)
    (hentry : st.entry = some e) (hfresh : now < e.expiresAt) :
    getStep st caller false now = (st, some e.snapshot) ∧
    (completeRefresh st (.success snap) tnow ttl).fst.entry =
      some { snapshot := snap, expiresAt := tnow + ttl } ∧
    defaultTtlSeconds = 300 := by
  refine ⟨?_, by simp [completeRefresh], rfl⟩
  have hr : needsRefresh st.entry false now = false := by
    simp [needsRefresh, hentry, Nat.not_le.mpr hfresh]
  unfold getStep
  rw [hr]
  simp [hentry]

/-- Witness for C7 at an entry expiring at 300 read at instant 299. -/
theorem cache_hit_zero_fetch_witness :
    getStep stHitW 1 false 299 = (stHitW, some entryW.snapshot) ∧
    (completeRefresh stHitW (.success snapW2) 10 defaultTtlSeconds).fst.entry =
      some { snapshot := snapW2, expiresAt := 10 + defaultTtlSeconds } ∧
    defaultTtlSeconds = 300 :=
  cache_hit_zero_fetch stHitW 1 299 10 defaultTtlSeconds entryW snapW2 rfl
    (by decide)

/-- C8: the normalization is a pure function, so two evaluations on the same
input are identical, and it preserves the order of the input: the output has
the same length and the record at every index is the normalization of the
input record at that index. -/
theorem parse_deterministic_ordered (ms : List RawMatch) :
    normalizeAll ms = normalizeAll ms ∧
    (normalizeAll ms).length = ms.length ∧
    (∀ i dm dr, i < ms.length →
      (normalizeAll ms).getD i dr = normalizeMatch (ms.getD i dm)) := by
  refine ⟨rfl, by simp [normalizeAll], ?_⟩
  intro i dm dr h
  simp [normalizeAll, List.getD_eq_getElem?_getD, List.getElem?_map,
    List.getElem?_eq_getElem h]

/-- Witness for C8 at a two-record batch, reading index 1. -/
theorem parse_deterministic_ordered_witness :
    (normalizeAll msW).getD 1 recDefW = normalizeMatch (msW.getD 1 rawDefW) :=
  (parse_deterministic_ordered msW).2.2 1 rawDefW recDefW (by decide)

/-- C9: the presentation layer classifies a record as live exactly when its
raw text contains the substring hoje, and the classification depends on no
field other than raw: records with equal raw classify equally. -/
theorem isLive_iff_raw (m : MatchRecord) :
    (isLive m = true ↔ ContainsSub m.raw "hoje") ∧
    (∀ m2 : MatchRecord, m2.raw = m.raw → isLive m2 = isLive m) := by
  constructor
  · unfold isLive strIncludes ContainsSub
    exact substrAux_iff _ _
  · intro m2 h
    unfold isLive
    rw [h]

/-- Witness for C9: two records sharing a raw text containing hoje but
differing in every other field classify equally, and as live. -/
theorem isLive_iff_raw_witness :
    isLive mLiveW2 = isLive mLiveW ∧ isLive mLiveW = true :=
  ⟨(isLive_iff_raw mLiveW).2 mLiveW2 rfl, by decide⟩

/-- C10: every failed load, a thrown fetch or JSON error, a non-2xx status,
or an unusable payload, leaves the component with an empty match list and a
non-null error message, regardless of the previously displayed matches. -/
theorem load_failure_clears (prev : UiState) (o : FetchOutcome)
    (h : loadFails o = true) :
    loadMatches prev o = { matchList := [], error := some loadErrorMsg } := by
  cases o with
  | thrown => rfl
  | response status data =>
    rw [loadFails, Bool.or_eq_true] at h
    simp only [loadMatches]
    rcases h with h | h
    · rw [Bool.not_eq_true'] at h
      simp [h]
    · rw [Option.isNone_iff_eq_none] at h
      split <;> simp [h]

/-- Witness for C10: a 500 response wipes a previously nonempty match list
and installs the error message. -/
theorem load_failure_clears_witness :
    loadMatches uiPrevW (.response 500 (.arr [])) =
      { matchList := [], error := some loadErrorMsg } :=
  load_failure_clears uiPrevW (.response 500 (.arr [])) (by decide)

end QualCanal
